import Mathlib

/-!
# Plate-production cost calculator (`script.js`)

A shallow embedding of the cost model, the input reader, the comparison
table and the persistence glue of `script.js`, with the properties the
specification states about them.

## Modelling conventions

* A JavaScript Number is modelled by a rational (`ℚ`).  The cost model is
  stated over exact arithmetic.  The percentage of lines 350-351, on which the
  `diff-significant` mark depends, is computed as the script computes it: each
  operation is rounded to binary64 (`round64`: nearest, ties to even,
  subnormals, overflow to an infinity).  A `NaN` produced by `parseFloat` is
  `none`.  Every `/` of the source sits behind a guard on its divisor, so the
  value Lean gives to a division by zero is never used; the divisors each
  guarded expression of the cost model evaluates are listed next to it.
* Host functions (`parseFloat`, number-to-string conversion, `toFixed(2)`,
  `checkValidity`) are fields of `Host`; the properties of the script are
  proved for every host, and `sampleHost` serves to evaluate them.
* The document is the list of its `<input>` elements; `getElementById`
  returns the first element with the id, or nothing, and reading `.value` of
  nothing is the `TypeError` the source would throw.
* A value of `localStorage` is modelled by the object its JSON text denotes:
  the list of its properties in enumeration order.
* `console.log` calls, the event wiring of `init` and
  `addInputValidationListeners`, and the cosmetic chart options (colours, axis
  titles) are left out.
-/

namespace TwoWeb

/-! ## Data model -/

/-- The object literal returned by `getInputs` (lines 45-68). -/
structure InputRecord where
  developerPrice : ℚ
  developerConsumption : ℚ
  platePrice : ℚ
  equipmentPrice : ℚ
  depreciationYears : ℚ
  powerConsumption : ℚ
  operatingTime : ℚ
  electricityPrice : ℚ
  laborSalary : ℚ
  workDays : ℚ
  dailyHours : ℚ
  wastewaterVolume : ℚ
  wastewaterPrice : ℚ
  waterConsumption : ℚ
  waterPrice : ℚ
  deriving DecidableEq

/-- The object literal returned by `calculateSinglePlateCost` (lines 108-117). -/
structure CostBreakdown where
  materialCost : ℚ
  depreciationCost : ℚ
  energyCost : ℚ
  wastewaterTreatmentCost : ℚ
  waterConsumptionCost : ℚ
  laborCost : ℚ
  totalMonthlyCost : ℚ
  unitCost : ℚ
  deriving DecidableEq

/-! ## Cost model (lines 79-118) -/

/-- The constant `baseArea` of line 105. -/
def baseArea : ℚ := 1000

/-- Line 86: `depreciationYears > 0 ? equipmentPrice / (depreciationYears * 12) : 0`. -/
def depreciationCost (inputs : InputRecord) : ℚ :=
  if inputs.depreciationYears > 0 then
    inputs.equipmentPrice / (inputs.depreciationYears * 12)
  else 0

/-- The divisors of the `/` operations line 86 evaluates: the conditional
operator evaluates only the branch it selects. -/
def depreciationDivisors (inputs : InputRecord) : List ℚ :=
  if inputs.depreciationYears > 0 then [inputs.depreciationYears * 12] else []

/-- Line 100: `(workDays * dailyHours) > 0 ? (laborSalary / workDays) / dailyHours : 0`. -/
def laborCost (inputs : InputRecord) : ℚ :=
  if inputs.workDays * inputs.dailyHours > 0 then
    (inputs.laborSalary / inputs.workDays) / inputs.dailyHours
  else 0

/-- The divisors of the `/` operations line 100 evaluates, in evaluation order. -/
def laborDivisors (inputs : InputRecord) : List ℚ :=
  if inputs.workDays * inputs.dailyHours > 0 then
    [inputs.workDays, inputs.dailyHours]
  else []

/-- The arrow function `calculateSinglePlateCost` of lines 79-118. -/
def calculateSinglePlateCost (inputs : InputRecord) : CostBreakdown :=
  let materialCost :=
    (inputs.developerPrice * inputs.developerConsumption) + inputs.platePrice
  let depreciationCost := depreciationCost inputs
  let energyCost :=
    inputs.powerConsumption * inputs.operatingTime * inputs.electricityPrice
  let wastewaterTreatmentCost := inputs.wastewaterVolume * inputs.wastewaterPrice
  let waterConsumptionCost := inputs.waterConsumption * inputs.waterPrice
  let laborCost := laborCost inputs
  let totalMonthlyCost :=
    materialCost + depreciationCost + energyCost + wastewaterTreatmentCost
      + waterConsumptionCost + laborCost
  let unitCost := if baseArea > 0 then totalMonthlyCost / baseArea else 0
  { materialCost := materialCost
    depreciationCost := depreciationCost
    energyCost := energyCost
    wastewaterTreatmentCost := wastewaterTreatmentCost
    waterConsumptionCost := waterConsumptionCost
    laborCost := laborCost
    totalMonthlyCost := totalMonthlyCost
    unitCost := unitCost }

/-- The input record of the worked example of the specification. -/
def exampleInputs : InputRecord :=
  { developerPrice := 10
    developerConsumption := 2
    platePrice := 50
    equipmentPrice := 2400
    depreciationYears := 2
    powerConsumption := 5
    operatingTime := 100
    electricityPrice := 1
    laborSalary := 6000
    workDays := 22
    dailyHours := 8
    wastewaterVolume := 10
    wastewaterPrice := 3
    waterConsumption := 20
    waterPrice := 2 }

/-! ## Host environment and page state -/

/-- An `<input>` element of the page: its id, its current `value` text, whether
it carries the `required` attribute, and whether its class list holds
`invalid`. -/
structure InputElement where
  id : String
  value : String
  required : Bool
  invalid : Bool
  deriving DecidableEq

/-- The exception raised by `.value` on `null` (no element with the id). -/
inductive JSError where
  | typeError
  deriving DecidableEq

/-- The host functions the script calls. `parseFloat` returns `none` for `NaN`;
`numberToString` is the conversion applied by `element.value = number`;
`toFixed2 x` is `x.toFixed(2)`; `checkValidity` is the browser's constraint
validation of an element. -/
structure Host where
  parseFloat : String → Option ℚ
  numberToString : ℚ → String
  toFixed2 : ℚ → String
  checkValidity : InputElement → Bool

/-- The JavaScript expression `v || 0` on a number: `NaN` and zero are falsy. -/
def orZero : Option ℚ → ℚ
  | none => 0
  | some x => if x = 0 then 0 else x

/-- The first element with the id, as `document.getElementById`. -/
def getElementById (doc : List InputElement) (id : String) : Option InputElement :=
  doc.find? (fun e => e.id == id)

/-- The function `validateInput` of lines 29-35. -/
def validateInput (h : Host) (inputElement : InputElement) : InputElement :=
  if h.checkValidity inputElement then
    { inputElement with invalid := false }
  else
    { inputElement with invalid := true }

/-- The arrow function `getVal` of line 43, for the id prefix `pfx`. -/
def getVal (h : Host) (pfx : String) (doc : List InputElement) (id : String) :
    Except JSError ℚ :=
  match getElementById doc (pfx ++ id) with
  | none => .error .typeError
  | some e => .ok (orZero (h.parseFloat e.value))

/-- The function `getInputs` of lines 42-69. -/
def getInputs (h : Host) (pfx : String) (doc : List InputElement) :
    Except JSError InputRecord := do
  let developerPrice ← getVal h pfx doc "developer-price"
  let developerConsumption ← getVal h pfx doc "developer-consumption"
  let platePrice ← getVal h pfx doc "plate-price"
  let equipmentPrice ← getVal h pfx doc "equipment-price"
  let depreciationYears ← getVal h pfx doc "depreciation-years"
  let powerConsumption ← getVal h pfx doc "power-consumption"
  let operatingTime ← getVal h pfx doc "operating-time"
  let electricityPrice ← getVal h pfx doc "electricity-price"
  let laborSalary ← getVal h pfx doc "labor-salary"
  let workDays ← getVal h pfx doc "work-days"
  let dailyHours ← getVal h pfx doc "daily-hours"
  let wastewaterVolume ← getVal h pfx doc "wastewater-volume"
  let wastewaterPrice ← getVal h pfx doc "wastewater-price"
  let waterConsumption ← getVal h pfx doc "water-consumption"
  let waterPrice ← getVal h pfx doc "water-price"
  pure
    { developerPrice := developerPrice
      developerConsumption := developerConsumption
      platePrice := platePrice
      equipmentPrice := equipmentPrice
      depreciationYears := depreciationYears
      powerConsumption := powerConsumption
      operatingTime := operatingTime
      electricityPrice := electricityPrice
      laborSalary := laborSalary
      workDays := workDays
      dailyHours := dailyHours
      wastewaterVolume := wastewaterVolume
      wastewaterPrice := wastewaterPrice
      waterConsumption := waterConsumption
      waterPrice := waterPrice }

/-- The fields of an `InputRecord` with the element id suffix `getInputs` reads
each from (lines 47-67), in the order of the object literal. -/
def inputFields : List (String × String × (InputRecord → ℚ)) :=
  [ ("developerPrice", "developer-price", InputRecord.developerPrice),
    ("developerConsumption", "developer-consumption", InputRecord.developerConsumption),
    ("platePrice", "plate-price", InputRecord.platePrice),
    ("equipmentPrice", "equipment-price", InputRecord.equipmentPrice),
    ("depreciationYears", "depreciation-years", InputRecord.depreciationYears),
    ("powerConsumption", "power-consumption", InputRecord.powerConsumption),
    ("operatingTime", "operating-time", InputRecord.operatingTime),
    ("electricityPrice", "electricity-price", InputRecord.electricityPrice),
    ("laborSalary", "labor-salary", InputRecord.laborSalary),
    ("workDays", "work-days", InputRecord.workDays),
    ("dailyHours", "daily-hours", InputRecord.dailyHours),
    ("wastewaterVolume", "wastewater-volume", InputRecord.wastewaterVolume),
    ("wastewaterPrice", "wastewater-price", InputRecord.wastewaterPrice),
    ("waterConsumption", "water-consumption", InputRecord.waterConsumption),
    ("waterPrice", "water-price", InputRecord.waterPrice) ]

/-- The own properties of an `InputRecord` in enumeration order: what
`JSON.stringify` writes and `for (const key in data)` visits after `JSON.parse`. -/
def InputRecord.entries (r : InputRecord) : List (String × ℚ) :=
  inputFields.map fun f => (f.1, f.2.2 r)

/-- The object returned by `calculateCosts` (lines 123-126). -/
structure ComparisonResult where
  fl : CostBreakdown
  tr : CostBreakdown
  deriving DecidableEq

/-- The function `calculateCosts` of lines 75-127. -/
def calculateCosts (h : Host) (doc : List InputElement) :
    Except JSError ComparisonResult := do
  let flInputs ← getInputs h "fl-" doc
  let trInputs ← getInputs h "tr-" doc
  let flResults := calculateSinglePlateCost flInputs
  let trResults := calculateSinglePlateCost trInputs
  pure { fl := flResults, tr := trResults }

/-! ## Comparison table (lines 332-378) -/

/-- A row of the comparison table: the label cell, the three number cells'
text, which of the two value cells carries the class `cost-lower`, whether
the difference cell carries `diff-significant`, and its `title` when set. -/
structure Row where
  label : String
  flText : String
  trText : String
  diffText : String
  flCostLower : Bool
  trCostLower : Bool
  diffSignificant : Bool
  diffTitle : Option String
  deriving DecidableEq

/-- The array `costItems` of lines 336-345; `key` is the property accessor. -/
def costItems : List (String × (CostBreakdown → ℚ)) :=
  [ ("材料成本", CostBreakdown.materialCost),
    ("设备折旧成本", CostBreakdown.depreciationCost),
    ("能耗成本", CostBreakdown.energyCost),
    ("废水处理成本", CostBreakdown.wastewaterTreatmentCost),
    ("清水消耗成本", CostBreakdown.waterConsumptionCost),
    ("人工成本", CostBreakdown.laborCost),
    ("总月成本", CostBreakdown.totalMonthlyCost),
    ("单位成本 (元/平米)", CostBreakdown.unitCost) ]

/-! ### Binary64 arithmetic of lines 350-351 -/

/-- A binary64 value other than `NaN`: a finite number or an infinity. -/
inductive Binary64 where
  | fin (q : ℚ)
  | inf (negative : Bool)
  deriving DecidableEq

/-- The integer nearest to `r`, the even one of the two when `r` lies halfway. -/
def roundHalfEven (r : ℚ) : ℤ :=
  let f := ⌊r⌋
  if r - f < 1 / 2 then f
  else if 1 / 2 < r - f then f + 1
  else if f % 2 = 0 then f else f + 1

/-- The binary exponent binary64 gives `x`: that of its binade, and -1022 for a
subnormal. -/
def exponent64 (x : ℚ) : ℤ := max (Int.log 2 |x|) (-1022)

/-- The binary64 value of the real number `x`: `x` rounded to a multiple of
`2 ^ (exponent - 52)`, nearest with ties to even, and an infinity when the
rounded magnitude reaches `2 ^ 1024`. -/
def round64 (x : ℚ) : Binary64 :=
  let quantum : ℚ := 2 ^ (exponent64 x - 52)
  let y : ℚ := roundHalfEven (x / quantum) * quantum
  if 2 ^ 1024 ≤ |y| then .inf (decide (x < 0)) else .fin y

/-- The operation `a - b` on two finite numbers. -/
def sub64 (a b : ℚ) : Binary64 := round64 (a - b)

/-- The operation `x / b` for a finite `b` other than zero. -/
def div64 (x : Binary64) (b : ℚ) : Binary64 :=
  match x with
  | .fin d => round64 (d / b)
  | .inf negative => .inf (negative != decide (b < 0))

/-- The operation `x * c` for a finite `c` other than zero. -/
def mul64 (x : Binary64) (c : ℚ) : Binary64 :=
  match x with
  | .fin p => round64 (p * c)
  | .inf negative => .inf (negative != decide (c < 0))

/-- The test `Math.abs(x) > c`. -/
def absGt (x : Binary64) (c : ℚ) : Bool :=
  match x with
  | .fin p => decide (|p| > c)
  | .inf _ => true

/-- The call `x.toFixed(2)`, which prints an infinity by name. -/
def fixed2 (h : Host) (x : Binary64) : String :=
  match x with
  | .fin p => h.toFixed2 p
  | .inf negative => if negative then "-Infinity" else "Infinity"

/-- Lines 350-351: `difference = flValue - trValue` and
`trValue !== 0 ? (difference / trValue) * 100 : 0`, each operation rounded. -/
def percentageDiff (flValue trValue : ℚ) : Binary64 :=
  let difference := sub64 flValue trValue
  if trValue ≠ 0 then mul64 (div64 difference trValue) 100 else .fin 0

/-- The body of the `forEach` callback (lines 348-376) for one cost item. -/
def comparisonRow (h : Host) (label : String) (flValue trValue : ℚ) : Row :=
  let difference := flValue - trValue
  let percentageDiff := percentageDiff flValue trValue
  let significant : Bool := absGt percentageDiff 10
  { label := label
    flText := h.toFixed2 flValue
    trText := h.toFixed2 trValue
    diffText := h.toFixed2 difference
    flCostLower := decide (flValue < trValue)
    trCostLower := !decide (flValue < trValue) && decide (trValue < flValue)
    diffSignificant := significant
    diffTitle :=
      if significant then
        some ("差异超过10% (" ++ fixed2 h percentageDiff ++ "%)")
      else none }

/-- A `Chart` instance: its type, its labels and the data of its one dataset. -/
structure Chart where
  kind : String
  labels : List String
  data : List ℚ
  deriving DecidableEq

/-- The state the script reads and writes: the input elements, the rows of the
table body, the four chart instances, the number of `destroy()` calls made,
`localStorage` (a stored value is the object its JSON text denotes) and the
alerts shown. -/
structure Page where
  inputs : List InputElement
  tableBody : List Row
  totalCostChartInstance : Option Chart
  flCostCompositionChartInstance : Option Chart
  trCostCompositionChartInstance : Option Chart
  unitCostTrendChartInstance : Option Chart
  destroyed : Nat
  localStorage : String → Option (List (String × ℚ))
  alerts : List String

/-- The function `displayComparisonTable` of lines 332-378: the table body is
emptied and one row is inserted per cost item. -/
def displayComparisonTable (h : Host) (results : ComparisonResult) (page : Page) : Page :=
  { page with
    tableBody := costItems.map fun item =>
      comparisonRow h item.1 (item.2 results.fl) (item.2 results.tr) }

/-- The labels of the two bar charts. -/
def workflowLabels : List String := ["免冲洗版", "传统冲洗版"]

/-- The labels of the two pie charts. -/
def compositionLabels : List String :=
  ["材料成本", "设备折旧成本", "能耗成本", "废水处理成本", "清水消耗成本", "人工成本"]

/-- The six values of a composition pie chart (lines 204-211, 249-256). -/
def compositionData (b : CostBreakdown) : List ℚ :=
  [b.materialCost, b.depreciationCost, b.energyCost, b.wastewaterTreatmentCost,
    b.waterConsumptionCost, b.laborCost]

/-- The number of `destroy()` calls lines 158-161 make. -/
def liveCharts (page : Page) : Nat :=
  [page.totalCostChartInstance, page.flCostCompositionChartInstance,
    page.trCostCompositionChartInstance, page.unitCostTrendChartInstance].countP
    Option.isSome

/-- The function `renderCharts` of lines 156-326. -/
def renderCharts (results : ComparisonResult) (page : Page) : Page :=
  { page with
    destroyed := page.destroyed + liveCharts page
    totalCostChartInstance := some
      { kind := "bar", labels := workflowLabels
        data := [results.fl.totalMonthlyCost, results.tr.totalMonthlyCost] }
    flCostCompositionChartInstance := some
      { kind := "pie", labels := compositionLabels, data := compositionData results.fl }
    trCostCompositionChartInstance := some
      { kind := "pie", labels := compositionLabels, data := compositionData results.tr }
    unitCostTrendChartInstance := some
      { kind := "bar", labels := workflowLabels
        data := [results.fl.unitCost, results.tr.unitCost] } }

/-! ## Persistence (lines 385-420) -/

/-- The call `localStorage.setItem(key, JSON.stringify(data))`. -/
def setItem (storage : String → Option (List (String × ℚ))) (key : String)
    (data : List (String × ℚ)) : String → Option (List (String × ℚ)) :=
  fun k => if k = key then some data else storage k

/-- The function `saveData` of lines 385-389. -/
def saveData (flData trData : InputRecord) (page : Page) : Page :=
  { page with
    localStorage :=
      setItem (setItem page.localStorage "flInputs" flData.entries) "trInputs"
        trData.entries }

/-- The replacement `key.replace(/[A-Z]/g, match => '-' + match.toLowerCase())`
of line 414. -/
def kebabCase (key : String) : String :=
  String.mk (key.data.flatMap fun c =>
    if 'A' ≤ c ∧ c ≤ 'Z' then ['-', c.toLower] else [c])

/-- Apply `f` to the first element with the id, the element `getElementById`
returns. -/
def updateElement (doc : List InputElement) (id : String)
    (f : InputElement → InputElement) : List InputElement :=
  match doc with
  | [] => []
  | e :: rest => if e.id == id then f e :: rest else e :: updateElement rest id f

/-- The body of the loop of `setInputs` (lines 414-418) for one property. -/
def setInput (h : Host) (pfx : String) (doc : List InputElement) (entry : String × ℚ) :
    List InputElement :=
  let id := pfx ++ kebabCase entry.1
  match getElementById doc id with
  | some _ =>
    updateElement doc id fun element =>
      validateInput h { element with value := h.numberToString entry.2 }
  | none => doc

/-- The function `setInputs` of lines 412-420. -/
def setInputs (h : Host) (pfx : String) (data : List (String × ℚ))
    (doc : List InputElement) : List InputElement :=
  data.foldl (setInput h pfx) doc

/-- The function `loadSavedData` of lines 394-405. -/
def loadSavedData (h : Host) (page : Page) : Page :=
  let flData := page.localStorage "flInputs"
  let trData := page.localStorage "trInputs"
  let doc1 :=
    match flData with
    | some data => setInputs h "fl-" data page.inputs
    | none => page.inputs
  let doc2 :=
    match trData with
    | some data => setInputs h "tr-" data doc1
    | none => doc1
  { page with inputs := doc2 }

/-- The call `saveData(A, B)` followed by `loadSavedData()`, the input elements
being `doc` when the load runs (the page may have been edited or reloaded). -/
def saveThenLoad (h : Host) (A B : InputRecord) (page : Page) (doc : List InputElement) :
    Page :=
  loadSavedData h { saveData A B page with inputs := doc }

/-! ## The calculate action (lines 132-145) -/

/-- The text of the alert of line 136. -/
def alertMessage : String := "请填写所有必填项并确保输入有效。"

/-- The function `calculateCostsAndDisplay` of lines 132-145. -/
def calculateCostsAndDisplay (h : Host) (page : Page) : Except JSError Page :=
  let allInputsValid := (page.inputs.filter (·.required)).all h.checkValidity
  if !allInputsValid then
    .ok { page with alerts := page.alerts ++ [alertMessage] }
  else do
    let results ← calculateCosts h page.inputs
    let page1 := displayComparisonTable h results page
    let page2 := renderCharts results page1
    let flData ← getInputs h "fl-" page2.inputs
    let trData ← getInputs h "tr-" page2.inputs
    pure (saveData flData trData page2)

/-! ## Reading a well-formed page -/

/-- The `value` text of the element `getElementById` returns, when there is one. -/
def valueAt (doc : List InputElement) (id : String) : Option String :=
  (getElementById doc id).map (·.value)

/-- Whether the page has an element for each of the fifteen ids `getInputs`
reads under the prefix. -/
def fieldsPresent (pfx : String) (doc : List InputElement) : Bool :=
  inputFields.all fun f => (valueAt doc (pfx ++ f.2.1)).isSome

/-- The number `getVal` yields for the id when its element exists. -/
def fieldValue (h : Host) (pfx : String) (doc : List InputElement) (id : String) : ℚ :=
  match valueAt doc (pfx ++ id) with
  | some text => orZero (h.parseFloat text)
  | none => 0

/-- The record `getInputs` yields when the fifteen elements exist. -/
def readRecord (h : Host) (pfx : String) (doc : List InputElement) : InputRecord :=
  { developerPrice := fieldValue h pfx doc "developer-price"
    developerConsumption := fieldValue h pfx doc "developer-consumption"
    platePrice := fieldValue h pfx doc "plate-price"
    equipmentPrice := fieldValue h pfx doc "equipment-price"
    depreciationYears := fieldValue h pfx doc "depreciation-years"
    powerConsumption := fieldValue h pfx doc "power-consumption"
    operatingTime := fieldValue h pfx doc "operating-time"
    electricityPrice := fieldValue h pfx doc "electricity-price"
    laborSalary := fieldValue h pfx doc "labor-salary"
    workDays := fieldValue h pfx doc "work-days"
    dailyHours := fieldValue h pfx doc "daily-hours"
    wastewaterVolume := fieldValue h pfx doc "wastewater-volume"
    wastewaterPrice := fieldValue h pfx doc "wastewater-price"
    waterConsumption := fieldValue h pfx doc "water-consumption"
    waterPrice := fieldValue h pfx doc "water-price" }

/-! ## A concrete host and page, for evaluation -/

/-- The value of a string of decimal digits, `none` when it is empty or holds
another character. -/
def parseNat (s : String) : Option ℕ :=
  if s.data = [] then none
  else s.data.foldl
    (fun acc c =>
      match acc with
      | none => none
      | some n => if '0' ≤ c ∧ c ≤ '9' then some (n * 10 + (c.toNat - 48)) else none)
    (some 0)

/-- Rounding to two decimals, ties away from zero, as `toFixed(2)` prints a
magnitude below 10^21. -/
def roundFixed2 (x : ℚ) : String :=
  let n : ℕ := (200 * x.num.natAbs + x.den) / (2 * x.den)
  let cents := n % 100
  let body := Nat.repr (n / 100) ++ "." ++ (if cents < 10 then "0" else "") ++ Nat.repr cents
  if x < 0 then "-" ++ body else body

/-- A small host: numbers are read and written as decimal naturals, and an
element is valid when its text is one or when it is optional and empty. -/
def sampleHost : Host where
  parseFloat s := (parseNat s).map fun n => (n : ℚ)
  numberToString x := if x.den = 1 ∧ 0 ≤ x.num then Nat.repr x.num.toNat else "NaN"
  toFixed2 := roundFixed2
  checkValidity e := (parseNat e.value).isSome || (!e.required && e.value = "")

/-- The fifteen input elements of one workflow, required, with the given texts. -/
def sampleFields (pfx : String) (texts : List String) : List InputElement :=
  (inputFields.zip texts).map fun ft =>
    { id := pfx ++ ft.1.2.1, value := ft.2, required := true, invalid := false }

/-- The texts of the worked example of the specification. -/
def exampleTexts : List String :=
  ["10", "2", "50", "2400", "2", "5", "100", "1", "6000", "22", "8", "10", "3", "20", "2"]

/-- A second workflow: the worked example with the plate price raised to 60. -/
def otherTexts : List String :=
  ["10", "2", "60", "2400", "2", "5", "100", "1", "6000", "22", "8", "10", "3", "20", "2"]

/-- A page holding both workflows' fields, nothing rendered, nothing stored. -/
def samplePage : Page where
  inputs := sampleFields "fl-" exampleTexts ++ sampleFields "tr-" otherTexts
  tableBody := []
  totalCostChartInstance := none
  flCostCompositionChartInstance := none
  trCostCompositionChartInstance := none
  unitCostTrendChartInstance := none
  destroyed := 0
  localStorage := fun _ => none
  alerts := []

/-- The sample page's fields with the two workflows' texts exchanged. -/
def swappedFields : List InputElement :=
  sampleFields "fl-" otherTexts ++ sampleFields "tr-" exampleTexts

/-- The record of `otherTexts`: the worked example with plate price 60. -/
def otherInputs : InputRecord := { exampleInputs with platePrice := 60 }

/-- The sample page with the required field `fl-developer-price` left empty. -/
def invalidPage : Page :=
  { samplePage with
    inputs := sampleFields "fl-" ("" :: exampleTexts.tail) ++ sampleFields "tr-" otherTexts }

/-- The comparison of the worked example with its variant. -/
def sampleResults : ComparisonResult :=
  { fl := calculateSinglePlateCost exampleInputs
    tr := calculateSinglePlateCost otherInputs }

/-- The material-cost row of the sample comparison: 70 against 80. -/
def materialRow : Row :=
  comparisonRow sampleHost "材料成本" sampleResults.fl.materialCost
    sampleResults.tr.materialCost

/-- The total-cost row of the sample comparison: 8515/11 against 8625/11. -/
def totalRow : Row :=
  comparisonRow sampleHost "总月成本" sampleResults.fl.totalMonthlyCost
    sampleResults.tr.totalMonthlyCost

/-- The binary64 number nearest to 0.1008. -/
def nearA : ℚ := 226981421219473 / 2251799813685248

/-- The binary64 number nearest to 0.112. -/
def nearB : ℚ := 8070450532247929 / 72057594037927936

/-- Two workflows whose only cost is the plate price, `nearA` against `nearB`. -/
def nearResults : ComparisonResult :=
  { fl := calculateSinglePlateCost
      { developerPrice := 0, developerConsumption := 0, platePrice := nearA
        equipmentPrice := 0, depreciationYears := 0, powerConsumption := 0
        operatingTime := 0, electricityPrice := 0, laborSalary := 0, workDays := 0
        dailyHours := 0, wastewaterVolume := 0, wastewaterPrice := 0
        waterConsumption := 0, waterPrice := 0 }
    tr := calculateSinglePlateCost
      { developerPrice := 0, developerConsumption := 0, platePrice := nearB
        equipmentPrice := 0, depreciationYears := 0, powerConsumption := 0
        operatingTime := 0, electricityPrice := 0, laborSalary := 0, workDays := 0
        dailyHours := 0, wastewaterVolume := 0, wastewaterPrice := 0
        waterConsumption := 0, waterPrice := 0 } }

/-- The sample page without the elements of the second workflow. -/
def flOnlyPage : Page :=
  { samplePage with inputs := sampleFields "fl-" exampleTexts }

/-! ## Theorems: cost model -/

/-- C1: the total monthly cost of every breakdown is the sum of the six
component costs of the same breakdown, with nothing rounded. -/
theorem totalMonthlyCost_eq_sum (inputs : InputRecord) :
    (calculateSinglePlateCost inputs).totalMonthlyCost
      = (calculateSinglePlateCost inputs).materialCost
        + (calculateSinglePlateCost inputs).depreciationCost
        + (calculateSinglePlateCost inputs).energyCost
        + (calculateSinglePlateCost inputs).wastewaterTreatmentCost
        + (calculateSinglePlateCost inputs).waterConsumptionCost
        + (calculateSinglePlateCost inputs).laborCost := by
  simp only [calculateSinglePlateCost]

/-- C2: the depreciation cost is `equipmentPrice / (depreciationYears * 12)` when
the depreciation years are positive and 0 otherwise, in particular 0 when they
are 0, and no division evaluated for it has a zero divisor. -/
theorem depreciationCost_spec (inputs : InputRecord) :
    (0 < inputs.depreciationYears →
        (calculateSinglePlateCost inputs).depreciationCost
          = inputs.equipmentPrice / (inputs.depreciationYears * 12))
    ∧ (inputs.depreciationYears ≤ 0 →
        (calculateSinglePlateCost inputs).depreciationCost = 0)
    ∧ (inputs.depreciationYears = 0 →
        (calculateSinglePlateCost inputs).depreciationCost = 0)
    ∧ (0 : ℚ) ∉ depreciationDivisors inputs := by
  refine ⟨fun h => ?_, fun h => ?_, fun h => ?_, ?_⟩
  · simp [calculateSinglePlateCost, depreciationCost, h]
  · simp [calculateSinglePlateCost, depreciationCost, not_lt.mpr h]
  · simp [calculateSinglePlateCost, depreciationCost, h]
  · unfold depreciationDivisors
    split_ifs with h
    · have h12 : inputs.depreciationYears * 12 ≠ 0 := by positivity
      simpa using h12.symm
    · simp

/-- C2 at the worked example: the guard is open, the cost is 2400 / 24 = 100. -/
theorem depreciationCost_spec_witness :
    (calculateSinglePlateCost exampleInputs).depreciationCost = 100
    ∧ (calculateSinglePlateCost
        { exampleInputs with depreciationYears := 0 }).depreciationCost = 0 := by
  refine ⟨?_, ?_⟩
  · rw [(depreciationCost_spec exampleInputs).1 (by norm_num [exampleInputs])]
    norm_num [exampleInputs]
  · exact (depreciationCost_spec _).2.2.1 rfl

/-- C3: the labor cost is `(laborSalary / workDays) / dailyHours` when
`workDays * dailyHours` is positive and 0 otherwise, in particular 0 when the
product is 0, and neither division evaluated for it has a zero divisor. -/
theorem laborCost_spec (inputs : InputRecord) :
    (0 < inputs.workDays * inputs.dailyHours →
        (calculateSinglePlateCost inputs).laborCost
          = (inputs.laborSalary / inputs.workDays) / inputs.dailyHours)
    ∧ (inputs.workDays * inputs.dailyHours ≤ 0 →
        (calculateSinglePlateCost inputs).laborCost = 0)
    ∧ (inputs.workDays * inputs.dailyHours = 0 →
        (calculateSinglePlateCost inputs).laborCost = 0)
    ∧ (0 : ℚ) ∉ laborDivisors inputs := by
  refine ⟨fun h => ?_, fun h => ?_, fun h => ?_, ?_⟩
  · simp [calculateSinglePlateCost, laborCost, h]
  · simp [calculateSinglePlateCost, laborCost, not_lt.mpr h]
  · simp [calculateSinglePlateCost, laborCost, h]
  · unfold laborDivisors
    split_ifs with h
    · have hne : inputs.workDays * inputs.dailyHours ≠ 0 := ne_of_gt h
      have h1 : inputs.workDays ≠ 0 := left_ne_zero_of_mul hne
      have h2 : inputs.dailyHours ≠ 0 := right_ne_zero_of_mul hne
      simp [h1.symm, h2.symm]
    · simp

/-- C3 at the worked example: the guard is open, the cost is 6000 / 22 / 8. -/
theorem laborCost_spec_witness :
    (calculateSinglePlateCost exampleInputs).laborCost = 375 / 11
    ∧ (calculateSinglePlateCost
        { exampleInputs with workDays := 0 }).laborCost = 0 := by
  refine ⟨?_, ?_⟩
  · rw [(laborCost_spec exampleInputs).1 (by norm_num [exampleInputs])]
    norm_num [exampleInputs]
  · exact (laborCost_spec _).2.2.1 (by norm_num [exampleInputs])

/-- C4: the unit cost of every breakdown is its total monthly cost divided by
1000, and the guard `baseArea > 0` holds, so its zero branch is never taken. -/
theorem unitCost_eq_total_div_1000 (inputs : InputRecord) :
    (calculateSinglePlateCost inputs).unitCost
      = (calculateSinglePlateCost inputs).totalMonthlyCost / 1000
    ∧ baseArea > 0 := by
  have hb : baseArea > 0 := by norm_num [baseArea]
  refine ⟨?_, hb⟩
  simp only [calculateSinglePlateCost, if_pos hb]
  rfl

/-- C5: for the worked example of the specification the breakdown has material
cost 70, depreciation cost 100, energy cost 500, wastewater cost 30 and water
cost 40, and its labor cost, total monthly cost and unit cost are 34.09, 774.09
and 0.774 at the precision these are listed with: each lies within half a unit
of the last listed digit. -/
theorem example_values_as_listed :
    (calculateSinglePlateCost exampleInputs).materialCost = 70
    ∧ (calculateSinglePlateCost exampleInputs).depreciationCost = 100
    ∧ (calculateSinglePlateCost exampleInputs).energyCost = 500
    ∧ (calculateSinglePlateCost exampleInputs).wastewaterTreatmentCost = 30
    ∧ (calculateSinglePlateCost exampleInputs).waterConsumptionCost = 40
    ∧ (34.085 ≤ (calculateSinglePlateCost exampleInputs).laborCost
        ∧ (calculateSinglePlateCost exampleInputs).laborCost < 34.095)
    ∧ (774.085 ≤ (calculateSinglePlateCost exampleInputs).totalMonthlyCost
        ∧ (calculateSinglePlateCost exampleInputs).totalMonthlyCost < 774.095)
    ∧ (0.7735 ≤ (calculateSinglePlateCost exampleInputs).unitCost
        ∧ (calculateSinglePlateCost exampleInputs).unitCost < 0.7745) := by
  norm_num [calculateSinglePlateCost, laborCost, depreciationCost, exampleInputs, baseArea]

/-! ## Theorems: binary64 rounding -/

theorem roundHalfEven_cases (r : ℚ) :
    roundHalfEven r = ⌊r⌋ ∧ r - ⌊r⌋ ≤ 1 / 2
    ∨ roundHalfEven r = ⌊r⌋ + 1 ∧ 1 / 2 ≤ r - ⌊r⌋ := by
  unfold roundHalfEven
  simp only []
  split_ifs with h1 h2 h3
  · exact Or.inl ⟨rfl, le_of_lt h1⟩
  · exact Or.inr ⟨rfl, le_of_lt h2⟩
  · exact Or.inl ⟨rfl, not_lt.mp h2⟩
  · exact Or.inr ⟨rfl, not_lt.mp h1⟩

theorem roundHalfEven_eq (r : ℚ) (n : ℤ) (h1 : (n : ℚ) - 1 / 2 < r) (h2 : r < n + 1 / 2) :
    roundHalfEven r = n := by
  have hf1 := Int.floor_le r
  have hf2 := Int.lt_floor_add_one r
  rcases roundHalfEven_cases r with ⟨h, hle⟩ | ⟨h, hle⟩
  · rw [h]
    have ha : (⌊r⌋ : ℚ) < n + 1 := by linarith
    have hb : (n : ℚ) < ⌊r⌋ + 1 := by linarith
    have ha' : ⌊r⌋ < n + 1 := by exact_mod_cast ha
    have hb' : n < ⌊r⌋ + 1 := by exact_mod_cast hb
    omega
  · rw [h]
    have ha : (⌊r⌋ : ℚ) < n := by linarith
    have hb : (n : ℚ) < ⌊r⌋ + 2 := by linarith
    have ha' : ⌊r⌋ < n := by exact_mod_cast ha
    have hb' : n < ⌊r⌋ + 2 := by exact_mod_cast hb
    omega

theorem roundHalfEven_intCast (n : ℤ) : roundHalfEven (n : ℚ) = n :=
  roundHalfEven_eq _ n (by linarith) (by linarith)

theorem roundHalfEven_le (r : ℚ) (M : ℤ) (h : r < M + 1 / 2) : roundHalfEven r ≤ M := by
  have hf1 := Int.floor_le r
  rcases roundHalfEven_cases r with ⟨h', hle⟩ | ⟨h', hle⟩
  · rw [h']
    have ha : (⌊r⌋ : ℚ) < M + 1 := by linarith
    have ha' : ⌊r⌋ < M + 1 := by exact_mod_cast ha
    omega
  · rw [h']
    have ha : (⌊r⌋ : ℚ) < M := by linarith
    have ha' : ⌊r⌋ < M := by exact_mod_cast ha
    omega

theorem le_roundHalfEven (r : ℚ) (M : ℤ) (h : (M : ℚ) - 1 / 2 < r) : M ≤ roundHalfEven r := by
  have hf2 := Int.lt_floor_add_one r
  rcases roundHalfEven_cases r with ⟨h', hle⟩ | ⟨h', hle⟩
  · rw [h']
    have ha : (M : ℚ) < ⌊r⌋ + 1 := by linarith
    have ha' : M < ⌊r⌋ + 1 := by exact_mod_cast ha
    omega
  · rw [h']
    have ha : (M : ℚ) < ⌊r⌋ + 2 := by linarith
    have ha' : M < ⌊r⌋ + 2 := by exact_mod_cast ha
    omega

theorem two_zpow_pos (e : ℤ) : (0 : ℚ) < 2 ^ e := zpow_pos (by norm_num) e

theorem log_le_exponent64 (x : ℚ) : Int.log 2 |x| ≤ exponent64 x := le_max_left _ _

theorem abs_lt_exponent64 (x : ℚ) : |x| < 2 ^ (exponent64 x + 1) := by
  have h := Int.lt_zpow_succ_log_self (b := 2) (by norm_num) |x|
  have hle : (2 : ℚ) ^ (Int.log 2 |x| + 1) ≤ 2 ^ (exponent64 x + 1) :=
    zpow_le_zpow_right₀ (by norm_num) (by have := log_le_exponent64 x; omega)
  have h' : |x| < (2 : ℚ) ^ (Int.log 2 |x| + 1) := by exact_mod_cast h
  exact lt_of_lt_of_le h' hle

theorem exponent64_le (x : ℚ) (E : ℤ) (hx : x ≠ 0) (hE : -1022 ≤ E)
    (h : |x| < 2 ^ (E + 1)) : exponent64 x ≤ E := by
  have hpos : 0 < |x| := abs_pos.mpr hx
  have h' : |x| < ((2 : ℕ) : ℚ) ^ (E + 1) := by exact_mod_cast h
  have hlog := (Int.lt_zpow_iff_log_lt (b := 2) (by norm_num) hpos).mp h'
  unfold exponent64
  exact max_le (by omega) hE

theorem exponent64_eq (x : ℚ) (e : ℤ) (he : -1022 ≤ e) (hlo : 2 ^ e ≤ |x|)
    (hhi : |x| < 2 ^ (e + 1)) : exponent64 x = e := by
  have hpos : 0 < |x| := lt_of_lt_of_le (two_zpow_pos e) hlo
  have hx : x ≠ 0 := abs_pos.mp hpos
  apply le_antisymm (exponent64_le x e hx he hhi)
  have hlo' : ((2 : ℕ) : ℚ) ^ e ≤ |x| := by exact_mod_cast hlo
  have := (Int.zpow_le_iff_le_log (b := 2) (by norm_num) hpos).mp hlo'
  exact le_trans this (log_le_exponent64 x)

theorem exponent64_mono (x y : ℚ) (hx : x ≠ 0) (h : |x| ≤ |y|) :
    exponent64 x ≤ exponent64 y := by
  unfold exponent64
  exact max_le_max (Int.log_mono_right (abs_pos.mpr hx) h) le_rfl

theorem round64_eq (x : ℚ) (n : ℤ)
    (hn : roundHalfEven (x / 2 ^ (exponent64 x - 52)) = n)
    (hfin : |(n : ℚ) * 2 ^ (exponent64 x - 52)| < 2 ^ 1024) :
    round64 x = .fin (n * 2 ^ (exponent64 x - 52)) := by
  unfold round64
  simp only [hn]
  rw [if_neg (not_le.mpr hfin)]

theorem round64_zero : round64 0 = .fin 0 := by
  have h := round64_eq 0 0 (by rw [zero_div]; exact_mod_cast roundHalfEven_intCast 0)
    (by simp)
  simpa using h

/-- Evaluation of `round64` from the binade and the rounded significand. -/
theorem round64_of_bounds (x : ℚ) (e n : ℤ) (he : -1022 ≤ e) (hlo : 2 ^ e ≤ |x|)
    (hhi : |x| < 2 ^ (e + 1)) (h1 : (n : ℚ) - 1 / 2 < x / 2 ^ (e - 52))
    (h2 : x / 2 ^ (e - 52) < n + 1 / 2) (hfin : |(n : ℚ) * 2 ^ (e - 52)| < 2 ^ 1024) :
    round64 x = .fin (n * 2 ^ (e - 52)) := by
  have hexp := exponent64_eq x e he hlo hhi
  have h := round64_eq x n (by rw [hexp]; exact roundHalfEven_eq _ n h1 h2)
    (by rw [hexp]; exact hfin)
  rw [hexp] at h
  exact h

theorem two_zpow_split (E : ℤ) : (2 : ℚ) ^ (E + 1) = 2 ^ 53 * 2 ^ (E - 52) := by
  have h : (2 : ℚ) ^ (E + 1) = 2 ^ ((53 : ℤ) + (E - 52)) := by congr 1; ring
  rw [h, zpow_add₀ (by norm_num : (2 : ℚ) ≠ 0)]
  norm_num

theorem two_zpow_split' (E : ℤ) : (2 : ℚ) ^ E = 2 ^ 52 * 2 ^ (E - 52) := by
  have h : (2 : ℚ) ^ E = 2 ^ ((52 : ℤ) + (E - 52)) := by congr 1; ring
  rw [h, zpow_add₀ (by norm_num : (2 : ℚ) ≠ 0)]
  norm_num

/-- Rounding does not cross a binary64 number: below `(N + 1/2)` quanta of the
binade `E` in magnitude, the rounded value is at most `N` quanta. -/
theorem round64_abs_le (x : ℚ) (N E : ℤ) (hE : -1022 ≤ E) (hE' : E < 1024)
    (hN1 : 2 ^ 52 ≤ N) (hN2 : N < 2 ^ 53)
    (hx : |x| < (N + 1 / 2) * 2 ^ (E - 52)) :
    ∃ y, round64 x = .fin y ∧ |y| ≤ N * 2 ^ (E - 52) := by
  have hN1q : (2 : ℚ) ^ 52 ≤ N := by exact_mod_cast hN1
  have hN2q : (N : ℚ) + 1 ≤ 2 ^ 53 := by exact_mod_cast (Int.add_one_le_iff.mpr hN2)
  have hqE : (0 : ℚ) < 2 ^ (E - 52) := two_zpow_pos _
  have hR : (N : ℚ) * 2 ^ (E - 52) < 2 ^ 1024 := by
    have h1 : (N : ℚ) * 2 ^ (E - 52) < 2 ^ 53 * 2 ^ (E - 52) :=
      mul_lt_mul_of_pos_right (by linarith) hqE
    have h2 : (2 : ℚ) ^ (E + 1) ≤ 2 ^ (1024 : ℤ) :=
      zpow_le_zpow_right₀ (by norm_num) (by omega)
    rw [two_zpow_split] at h2
    have h3 : (2 : ℚ) ^ (1024 : ℤ) = 2 ^ 1024 := zpow_natCast 2 1024
    linarith
  by_cases hx0 : x = 0
  · subst hx0
    exact ⟨0, round64_zero, by rw [abs_zero]; positivity⟩
  · have hxE : |x| < 2 ^ (E + 1) := by
      rw [two_zpow_split]
      have : ((N : ℚ) + 1 / 2) * 2 ^ (E - 52) ≤ 2 ^ 53 * 2 ^ (E - 52) :=
        mul_le_mul_of_nonneg_right (by linarith) (le_of_lt hqE)
      linarith
    have he : exponent64 x ≤ E := exponent64_le x E hx0 hE hxE
    have hq : (0 : ℚ) < 2 ^ (exponent64 x - 52) := two_zpow_pos _
    have key : |((roundHalfEven (x / 2 ^ (exponent64 x - 52)) : ℤ) : ℚ)
        * 2 ^ (exponent64 x - 52)| ≤ N * 2 ^ (E - 52) := by
      rw [abs_mul, abs_of_pos hq]
      rcases eq_or_lt_of_le he with heq | hlt
      · rw [heq]
        apply mul_le_mul_of_nonneg_right _ (le_of_lt hqE)
        have hlt : |x / 2 ^ (E - 52)| < N + 1 / 2 := by
          rw [abs_div, abs_of_pos hqE, div_lt_iff₀ hqE]
          exact hx
        have h1 := roundHalfEven_le (x / 2 ^ (E - 52)) N (lt_of_le_of_lt (le_abs_self _) hlt)
        have h2 := le_roundHalfEven (x / 2 ^ (E - 52)) (-N) (by
          have := neg_abs_le (x / 2 ^ (E - 52))
          push_cast
          linarith)
        rw [abs_le]
        constructor
        · exact_mod_cast h2
        · exact_mod_cast h1
      · have hxe := abs_lt_exponent64 x
        rw [two_zpow_split] at hxe
        have hlt' : |x / 2 ^ (exponent64 x - 52)| < 2 ^ 53 := by
          rw [abs_div, abs_of_pos hq, div_lt_iff₀ hq]
          exact hxe
        have h1 := roundHalfEven_le (x / 2 ^ (exponent64 x - 52)) (2 ^ 53) (by
          have := le_abs_self (x / 2 ^ (exponent64 x - 52))
          push_cast
          linarith)
        have h2 := le_roundHalfEven (x / 2 ^ (exponent64 x - 52)) (-(2 ^ 53)) (by
          have := neg_abs_le (x / 2 ^ (exponent64 x - 52))
          push_cast
          linarith)
        have habs : |((roundHalfEven (x / 2 ^ (exponent64 x - 52)) : ℤ) : ℚ)| ≤ 2 ^ 53 := by
          rw [abs_le]
          constructor
          · exact_mod_cast h2
          · exact_mod_cast h1
        have hstep : (2 : ℚ) ^ 53 * 2 ^ (exponent64 x - 52) ≤ 2 ^ 52 * 2 ^ (E - 52) := by
          rw [← two_zpow_split, ← two_zpow_split']
          exact zpow_le_zpow_right₀ (by norm_num) (by omega)
        calc |((roundHalfEven (x / 2 ^ (exponent64 x - 52)) : ℤ) : ℚ)|
              * 2 ^ (exponent64 x - 52)
            ≤ 2 ^ 53 * 2 ^ (exponent64 x - 52) :=
              mul_le_mul_of_nonneg_right habs (le_of_lt hq)
          _ ≤ 2 ^ 52 * 2 ^ (E - 52) := hstep
          _ ≤ N * 2 ^ (E - 52) := mul_le_mul_of_nonneg_right hN1q (le_of_lt hqE)
    exact ⟨_, round64_eq x _ rfl (lt_of_le_of_lt key hR), key⟩


/-- A quotient of at most one tenth in magnitude yields a percentage of at most
10 in magnitude: rounding the quotient gives at most the binary64 number
nearest to 0.1, and a hundred times that rounds to 10. -/
theorem percentage_le_ten (d B : ℚ) (hB : B ≠ 0) (h : |d| ≤ |B| / 10) :
    ∃ p, mul64 (round64 (d / B)) 100 = .fin p ∧ |p| ≤ 10 := by
  have hpos : 0 < |B| := abs_pos.mpr hB
  have hq : |d / B| ≤ 1 / 10 := by
    rw [abs_div, div_le_iff₀ hpos]
    linarith
  obtain ⟨y, hy, hyle⟩ := round64_abs_le (d / B) 7205759403792794 (-4) (by norm_num)
    (by norm_num) (by norm_num) (by norm_num)
    (lt_of_le_of_lt hq (by norm_num))
  have hy100 : |y * 100| < ((5629499534213120 : ℤ) + 1 / 2) * 2 ^ ((3 : ℤ) - 52) := by
    rw [abs_mul]
    have h100 : |(100 : ℚ)| = 100 := abs_of_pos (by norm_num)
    rw [h100]
    have hbound : |y| * 100 ≤ ((7205759403792794 : ℤ) : ℚ) * 2 ^ ((-4 : ℤ) - 52) * 100 :=
      mul_le_mul_of_nonneg_right hyle (by norm_num)
    refine lt_of_le_of_lt hbound ?_
    norm_num
  obtain ⟨p, hp, hple⟩ := round64_abs_le (y * 100) 5629499534213120 3 (by norm_num)
    (by norm_num) (by norm_num) (by norm_num) hy100
  refine ⟨p, ?_, ?_⟩
  · rw [hy]
    exact hp
  · refine le_trans hple ?_
    norm_num

theorem round64_fin_inv (x : ℚ) (h : round64 x = .fin x) :
    (∃ n : ℤ, x = n * 2 ^ (exponent64 x - 52)) ∧ |x| < 2 ^ 1024 := by
  unfold round64 at h
  simp only [] at h
  split_ifs at h with hbig
  have hx : (roundHalfEven (x / 2 ^ (exponent64 x - 52)) : ℚ) * 2 ^ (exponent64 x - 52) = x :=
    Binary64.fin.inj h
  refine ⟨⟨_, hx.symm⟩, ?_⟩
  rw [hx] at hbig
  exact not_le.mp hbig

theorem round64_of_multiple (x : ℚ) (m : ℤ) (hx : x = m * 2 ^ (exponent64 x - 52))
    (hfin : |x| < 2 ^ 1024) : round64 x = .fin x := by
  have hq : (0 : ℚ) < 2 ^ (exponent64 x - 52) := two_zpow_pos _
  have hdiv : x / 2 ^ (exponent64 x - 52) = m := by
    rw [div_eq_iff (ne_of_gt hq)]
    exact hx
  have h := round64_eq x m (by rw [hdiv]; exact roundHalfEven_intCast m)
    (by rw [← hx]; exact hfin)
  rw [← hx] at h
  exact h

theorem multiple_of_finer (x : ℚ) (n e e' : ℤ) (he : e' ≤ e) (hx : x = n * 2 ^ (e - 52)) :
    ∃ m : ℤ, x = m * 2 ^ (e' - 52) := by
  obtain ⟨k, hk⟩ := Int.eq_ofNat_of_zero_le (sub_nonneg.mpr he)
  refine ⟨n * 2 ^ k, ?_⟩
  have hsplit : (2 : ℚ) ^ (e - 52) = 2 ^ k * 2 ^ (e' - 52) := by
    have h1 : e - 52 = (k : ℤ) + (e' - 52) := by omega
    rw [h1, zpow_add₀ (by norm_num : (2 : ℚ) ≠ 0), zpow_natCast]
  rw [hx, hsplit]
  push_cast
  ring

/-- The subtraction of two binary64 numbers within a tenth of one another is
exact. -/
theorem sub64_exact (A B : ℚ) (hA : round64 A = .fin A) (hB : round64 B = .fin B)
    (h : |A - B| ≤ |B| / 10) : sub64 A B = .fin (A - B) := by
  unfold sub64
  by_cases hD : A - B = 0
  · rw [hD]; exact round64_zero
  · obtain ⟨⟨nA, hnA⟩, -⟩ := round64_fin_inv A hA
    obtain ⟨⟨nB, hnB⟩, hBfin⟩ := round64_fin_inv B hB
    have hDB : |A - B| ≤ |B| := by
      have := abs_nonneg B
      linarith
    have hDA : |A - B| ≤ |A| := by
      have h1 : |B| ≤ |A| + |A - B| := by
        have := abs_sub_abs_le_abs_sub B A
        rw [abs_sub_comm B A] at this
        linarith
      linarith
    obtain ⟨mA, hmA⟩ := multiple_of_finer A nA _ _ (exponent64_mono (A - B) A hD hDA) hnA
    obtain ⟨mB, hmB⟩ := multiple_of_finer B nB _ _ (exponent64_mono (A - B) B hD hDB) hnB
    apply round64_of_multiple (A - B) (mA - mB)
    · push_cast
      rw [sub_mul, ← hmA, ← hmB]
    · exact lt_of_le_of_lt hDB hBfin

theorem absGt_percentageDiff_sound (A B : ℚ) (hA : round64 A = .fin A)
    (hB : round64 B = .fin B) (hflag : absGt (percentageDiff A B) 10 = true) :
    B ≠ 0 ∧ |A - B| / |B| > 1 / 10 := by
  have hB0 : B ≠ 0 := by
    intro h0
    simp only [percentageDiff, h0, ne_eq, not_true_eq_false, if_false, absGt, abs_zero,
      decide_eq_true_eq] at hflag
    exact absurd hflag (by norm_num)
  refine ⟨hB0, ?_⟩
  by_contra hnot
  have hpos : 0 < |B| := abs_pos.mpr hB0
  have hle : |A - B| ≤ |B| / 10 := by
    have := not_lt.mp hnot
    rw [div_le_iff₀ hpos] at this
    linarith
  obtain ⟨p, hp, hple⟩ := percentage_le_ten (A - B) B hB0 hle
  have hval : percentageDiff A B = .fin p := by
    simp only [percentageDiff, sub64_exact A B hA hB hle, div64, ne_eq, hB0,
      not_false_eq_true, if_true]
    exact hp
  rw [hval] at hflag
  simp only [absGt, decide_eq_true_eq] at hflag
  exact absurd hflag (not_lt.mpr hple)

theorem round64_nearA : round64 nearA = .fin nearA := by
  have := round64_of_bounds nearA (-4) 7263405479023136 (by norm_num)
    (by norm_num [nearA, abs_of_pos]) (by norm_num [nearA, abs_of_pos])
    (by norm_num [nearA]) (by norm_num [nearA]) (by norm_num [abs_of_pos])
  rw [this]
  norm_num [nearA]

theorem round64_nearB : round64 nearB = .fin nearB := by
  have := round64_of_bounds nearB (-4) 8070450532247929 (by norm_num)
    (by norm_num [nearB, abs_of_pos]) (by norm_num [nearB, abs_of_pos])
    (by norm_num [nearB]) (by norm_num [nearB]) (by norm_num [abs_of_pos])
  rw [this]
  norm_num [nearB]

/-- The percentage of 0.1008 against 0.112 is computed as exactly -10. -/
theorem percentageDiff_near : percentageDiff nearA nearB = .fin (-10) := by
  have hsub : sub64 nearA nearB = .fin (-807045053224793 / 72057594037927936) := by
    have := round64_of_bounds (nearA - nearB) (-7) (-6456360425798344) (by norm_num)
      (by norm_num [nearA, nearB, abs_of_neg]) (by norm_num [nearA, nearB, abs_of_neg])
      (by norm_num [nearA, nearB]) (by norm_num [nearA, nearB])
      (by norm_num [abs_of_neg])
    unfold sub64
    rw [this]
    norm_num
  have hdiv : round64 (-807045053224793 / 72057594037927936 / nearB)
      = .fin (-3602879701896397 / 36028797018963968) := by
    have := round64_of_bounds (-807045053224793 / 72057594037927936 / nearB) (-4)
      (-7205759403792794) (by norm_num)
      (by norm_num [nearB, abs_of_neg]) (by norm_num [nearB, abs_of_neg])
      (by norm_num [nearB]) (by norm_num [nearB])
      (by norm_num [abs_of_neg])
    rw [this]
    norm_num
  have hmul : round64 (-3602879701896397 / 36028797018963968 * 100) = .fin (-10) := by
    have := round64_of_bounds (-3602879701896397 / 36028797018963968 * 100) 3
      (-5629499534213120) (by norm_num)
      (by norm_num [abs_of_neg]) (by norm_num [abs_of_neg])
      (by norm_num) (by norm_num)
      (by norm_num [abs_of_neg])
    rw [this]
    norm_num
  have hB : nearB ≠ 0 := by norm_num [nearB]
  simp only [percentageDiff, hsub, div64, mul64, ne_eq, hB, not_false_eq_true, if_true, hdiv,
    hmul]

/-- The percentage of 70 against 80 is computed as -12.5. -/
theorem percentageDiff_70_80 : percentageDiff 70 80 = .fin (-25 / 2) := by
  have hsub : sub64 70 80 = .fin (-10) := by
    have := round64_of_bounds (70 - 80) 3 (-5629499534213120) (by norm_num)
      (by norm_num [abs_of_neg]) (by norm_num [abs_of_neg])
      (by norm_num) (by norm_num) (by norm_num [abs_of_neg])
    unfold sub64
    rw [this]
    norm_num
  have hdiv : round64 (-10 / 80) = .fin (-1 / 8) := by
    have := round64_of_bounds (-10 / 80) (-3) (-4503599627370496) (by norm_num)
      (by norm_num [abs_of_neg]) (by norm_num [abs_of_neg])
      (by norm_num) (by norm_num) (by norm_num [abs_of_neg])
    rw [this]
    norm_num
  have hmul : round64 (-1 / 8 * 100) = .fin (-25 / 2) := by
    have := round64_of_bounds (-1 / 8 * 100) 3 (-7036874417766400) (by norm_num)
      (by norm_num [abs_of_neg]) (by norm_num [abs_of_neg])
      (by norm_num) (by norm_num) (by norm_num [abs_of_neg])
    rw [this]
    norm_num
  simp only [percentageDiff, hsub, div64, mul64, ne_eq, OfNat.ofNat_ne_zero,
    not_false_eq_true, if_true, hdiv, hmul]

/-! ## Theorems: comparison table -/

theorem mem_tableBody {h : Host} {results : ComparisonResult} {page : Page} {row : Row} :
    row ∈ (displayComparisonTable h results page).tableBody ↔
      ∃ item ∈ costItems,
        row = comparisonRow h item.1 (item.2 results.fl) (item.2 results.tr) := by
  simp only [displayComparisonTable, List.mem_map]
  constructor
  · rintro ⟨item, hi, rfl⟩; exact ⟨item, hi, rfl⟩
  · rintro ⟨item, hi, rfl⟩; exact ⟨item, hi, rfl⟩

theorem diffSignificant_eq (h : Host) (label : String) (A B : ℚ) :
    (comparisonRow h label A B).diffSignificant = absGt (percentageDiff A B) 10 := rfl

theorem nearRow_mem (h : Host) (page : Page) :
    comparisonRow h "材料成本" nearA nearB
      ∈ (displayComparisonTable h nearResults page).tableBody := by
  refine mem_tableBody.mpr
    ⟨("材料成本", CostBreakdown.materialCost), List.mem_cons_self _ _, ?_⟩
  have hA : nearResults.fl.materialCost = nearA := by
    simp [nearResults, calculateSinglePlateCost]
  have hB : nearResults.tr.materialCost = nearB := by
    simp [nearResults, calculateSinglePlateCost]
  simp only [hA, hB]

/-- C6, as stated, fails: the row of 0.1008 against 0.112 is in the table, both
values are binary64 numbers, the second is not zero and `|A - B| / |B|` exceeds
one tenth, yet the difference cell is not marked, because the percentage is
computed as exactly -10. -/
theorem near_threshold_not_flagged :
    comparisonRow sampleHost "材料成本" nearA nearB
      ∈ (displayComparisonTable sampleHost nearResults samplePage).tableBody
    ∧ round64 nearA = .fin nearA
    ∧ round64 nearB = .fin nearB
    ∧ nearB ≠ 0
    ∧ |nearA - nearB| / |nearB| > 1 / 10
    ∧ (comparisonRow sampleHost "材料成本" nearA nearB).diffSignificant = false := by
  refine ⟨nearRow_mem _ _, round64_nearA, round64_nearB, by norm_num [nearB], ?_, ?_⟩
  · norm_num [nearA, nearB, abs_of_neg, abs_of_pos]
  · rw [diffSignificant_eq, percentageDiff_near]
    norm_num [absGt]

/-- C6, amended: in every row of the displayed table, built from workflow-A
value `A` and workflow-B value `B`, the difference cell is marked significant
if and only if `B ≠ 0` and the percentage `(A - B) / B * 100`, each operation
rounded to binary64, exceeds 10 in magnitude; it is never marked when `B = 0`;
and when `A` and `B` are binary64 numbers, a marked cell has
`|A - B| / |B| > 1/10`, and a difference of exactly one tenth of `B` is not
marked. -/
theorem diffSignificant_spec (h : Host) (results : ComparisonResult) (page : Page)
    (row : Row) (hrow : row ∈ (displayComparisonTable h results page).tableBody) :
    ∃ item ∈ costItems,
      row = comparisonRow h item.1 (item.2 results.fl) (item.2 results.tr)
      ∧ (row.diffSignificant = true ↔
          item.2 results.tr ≠ 0
            ∧ absGt (mul64 (div64 (sub64 (item.2 results.fl) (item.2 results.tr))
                (item.2 results.tr)) 100) 10 = true)
      ∧ (item.2 results.tr = 0 → row.diffSignificant = false)
      ∧ (round64 (item.2 results.fl) = .fin (item.2 results.fl) →
          round64 (item.2 results.tr) = .fin (item.2 results.tr) →
          (row.diffSignificant = true →
              item.2 results.tr ≠ 0
                ∧ |item.2 results.fl - item.2 results.tr| / |item.2 results.tr| > 1 / 10)
            ∧ (|item.2 results.fl - item.2 results.tr| = |item.2 results.tr| / 10 →
                row.diffSignificant = false)) := by
  obtain ⟨item, hi, rfl⟩ := mem_tableBody.mp hrow
  have hzero : item.2 results.tr = 0 →
      (comparisonRow h item.1 (item.2 results.fl) (item.2 results.tr)).diffSignificant
        = false := by
    intro h0
    rw [diffSignificant_eq]
    simp only [percentageDiff, h0, ne_eq, not_true_eq_false, if_false, absGt, abs_zero,
      decide_eq_false_iff_not]
    norm_num
  refine ⟨item, hi, rfl, ?_, hzero, fun hA hB => ⟨fun hflag => ?_, fun h10 => ?_⟩⟩
  · rw [diffSignificant_eq]
    by_cases h0 : item.2 results.tr = 0
    · have hf := hzero h0
      rw [diffSignificant_eq] at hf
      rw [hf]
      simp [h0]
    · simp only [percentageDiff, ne_eq, h0, not_false_eq_true, if_true, true_and]
  · rw [diffSignificant_eq] at hflag
    exact absGt_percentageDiff_sound _ _ hA hB hflag
  · rw [Bool.eq_false_iff]
    intro hflag
    rw [diffSignificant_eq] at hflag
    obtain ⟨hB0, hgt⟩ := absGt_percentageDiff_sound _ _ hA hB hflag
    have hpos : 0 < |item.2 results.tr| := abs_pos.mpr hB0
    have hten : |item.2 results.tr| / 10 / |item.2 results.tr| = 1 / 10 := by
      field_simp
      ring
    rw [h10, hten] at hgt
    exact lt_irrefl _ hgt

/-- C6 on the sample comparison: the material row (70 against 80, a computed
percentage of -12.5) is in the table and is marked. -/
theorem diffSignificant_spec_witness :
    (∃ item ∈ costItems,
      materialRow = comparisonRow sampleHost item.1 (item.2 sampleResults.fl)
        (item.2 sampleResults.tr)
      ∧ (materialRow.diffSignificant = true ↔
          item.2 sampleResults.tr ≠ 0
            ∧ absGt (mul64 (div64 (sub64 (item.2 sampleResults.fl)
                (item.2 sampleResults.tr)) (item.2 sampleResults.tr)) 100) 10 = true)
      ∧ (item.2 sampleResults.tr = 0 → materialRow.diffSignificant = false)
      ∧ (round64 (item.2 sampleResults.fl) = .fin (item.2 sampleResults.fl) →
          round64 (item.2 sampleResults.tr) = .fin (item.2 sampleResults.tr) →
          (materialRow.diffSignificant = true →
              item.2 sampleResults.tr ≠ 0
                ∧ |item.2 sampleResults.fl - item.2 sampleResults.tr|
                    / |item.2 sampleResults.tr| > 1 / 10)
            ∧ (|item.2 sampleResults.fl - item.2 sampleResults.tr|
                  = |item.2 sampleResults.tr| / 10 →
                materialRow.diffSignificant = false)))
    ∧ materialRow.diffSignificant = true := by
  refine ⟨diffSignificant_spec sampleHost sampleResults samplePage materialRow
      (mem_tableBody.mpr
        ⟨("材料成本", CostBreakdown.materialCost), List.mem_cons_self _ _, rfl⟩), ?_⟩
  have hA : sampleResults.fl.materialCost = 70 := by
    norm_num [sampleResults, calculateSinglePlateCost, exampleInputs]
  have hB : sampleResults.tr.materialCost = 80 := by
    norm_num [sampleResults, calculateSinglePlateCost, exampleInputs, otherInputs]
  unfold materialRow
  rw [diffSignificant_eq, hA, hB, percentageDiff_70_80]
  norm_num [absGt, lt_abs]

/-- C10: in every row of the displayed table, built from workflow-A value `A`
and workflow-B value `B`, the difference cell shows `A - B` to two decimals, the
A cell is marked lower-cost exactly when `A < B`, the B cell exactly when
`B < A`, never both, and neither when `A = B`. -/
theorem costLower_iff (h : Host) (results : ComparisonResult) (page : Page)
    (row : Row) (hrow : row ∈ (displayComparisonTable h results page).tableBody) :
    ∃ item ∈ costItems,
      row = comparisonRow h item.1 (item.2 results.fl) (item.2 results.tr)
      ∧ row.flText = h.toFixed2 (item.2 results.fl)
      ∧ row.trText = h.toFixed2 (item.2 results.tr)
      ∧ row.diffText = h.toFixed2 (item.2 results.fl - item.2 results.tr)
      ∧ (row.flCostLower = true ↔ item.2 results.fl < item.2 results.tr)
      ∧ (row.trCostLower = true ↔ item.2 results.tr < item.2 results.fl)
      ∧ ¬ (row.flCostLower = true ∧ row.trCostLower = true)
      ∧ (item.2 results.fl = item.2 results.tr →
          row.flCostLower = false ∧ row.trCostLower = false) := by
  obtain ⟨item, hi, rfl⟩ := mem_tableBody.mp hrow
  refine ⟨item, hi, rfl, rfl, rfl, rfl, ?_, ?_, ?_, ?_⟩
  · simp [comparisonRow]
  · simp only [comparisonRow, Bool.and_eq_true, Bool.not_eq_true', decide_eq_false_iff_not,
      decide_eq_true_eq, not_lt, and_iff_right_iff_imp]
    exact fun hlt => le_of_lt hlt
  · simp only [comparisonRow, Bool.and_eq_true, Bool.not_eq_true', decide_eq_false_iff_not,
      decide_eq_true_eq, not_and]
    intro h1 h2
    exact absurd h1 h2
  · intro heq
    simp [comparisonRow, heq]

/-- C10 on the sample comparison: the total row (8515/11 against 8625/11) is in
the table, shows the difference -10.00, and marks the A cell only. -/
theorem costLower_iff_witness :
    (∃ item ∈ costItems,
      totalRow = comparisonRow sampleHost item.1 (item.2 sampleResults.fl)
        (item.2 sampleResults.tr)
      ∧ totalRow.flText = sampleHost.toFixed2 (item.2 sampleResults.fl)
      ∧ totalRow.trText = sampleHost.toFixed2 (item.2 sampleResults.tr)
      ∧ totalRow.diffText
          = sampleHost.toFixed2 (item.2 sampleResults.fl - item.2 sampleResults.tr)
      ∧ (totalRow.flCostLower = true ↔ item.2 sampleResults.fl < item.2 sampleResults.tr)
      ∧ (totalRow.trCostLower = true ↔ item.2 sampleResults.tr < item.2 sampleResults.fl)
      ∧ ¬ (totalRow.flCostLower = true ∧ totalRow.trCostLower = true)
      ∧ (item.2 sampleResults.fl = item.2 sampleResults.tr →
          totalRow.flCostLower = false ∧ totalRow.trCostLower = false))
    ∧ totalRow.diffText = "-10.00"
    ∧ totalRow.flCostLower = true
    ∧ totalRow.trCostLower = false :=
  ⟨costLower_iff sampleHost sampleResults samplePage totalRow
      (mem_tableBody.mpr
        ⟨("总月成本", CostBreakdown.totalMonthlyCost), by simp [costItems], rfl⟩),
    by
      have hx : sampleResults.fl.totalMonthlyCost - sampleResults.tr.totalMonthlyCost
          = -10 := by
        norm_num [sampleResults, calculateSinglePlateCost, laborCost, depreciationCost,
          exampleInputs, otherInputs, baseArea]
      show roundFixed2
        (sampleResults.fl.totalMonthlyCost - sampleResults.tr.totalMonthlyCost) = _
      rw [hx]
      decide,
    by norm_num [totalRow, comparisonRow, sampleResults, calculateSinglePlateCost, laborCost,
      depreciationCost, exampleInputs, otherInputs, baseArea],
    by norm_num [totalRow, comparisonRow, sampleResults, calculateSinglePlateCost, laborCost,
      depreciationCost, exampleInputs, otherInputs, baseArea]⟩

/-! ## Theorems: input reader -/

theorem orZero_eq_getD (o : Option ℚ) : orZero o = o.getD 0 := by
  cases o with
  | none => rfl
  | some x =>
    by_cases hx : x = 0
    · simp [orZero, hx]
    · simp [orZero, hx]

theorem getVal_of_present (h : Host) (pfx : String) (doc : List InputElement) (id : String)
    (hp : (valueAt doc (pfx ++ id)).isSome = true) :
    getVal h pfx doc id = .ok (fieldValue h pfx doc id) := by
  unfold getVal fieldValue valueAt
  unfold valueAt at hp
  cases hfind : getElementById doc (pfx ++ id) with
  | none => simp [hfind] at hp
  | some e => rfl

theorem fieldsPresent_iff (pfx : String) (doc : List InputElement) :
    fieldsPresent pfx doc = true ↔
      ∀ f ∈ inputFields, (valueAt doc (pfx ++ f.2.1)).isSome = true := by
  simp only [fieldsPresent, List.all_eq_true]

theorem getInputs_of_present (h : Host) (pfx : String) (doc : List InputElement)
    (hp : fieldsPresent pfx doc = true) :
    getInputs h pfx doc = .ok (readRecord h pfx doc) := by
  have hall := (fieldsPresent_iff pfx doc).mp hp
  have hid : ∀ id, (∃ f ∈ inputFields, f.2.1 = id) →
      getVal h pfx doc id = .ok (fieldValue h pfx doc id) := by
    rintro id ⟨f, hf, rfl⟩
    exact getVal_of_present h pfx doc _ (hall f hf)
  have mem : ∀ (key id : String) (get : InputRecord → ℚ),
      (key, id, get) ∈ inputFields → ∃ f ∈ inputFields, f.2.1 = id :=
    fun key id get hm => ⟨_, hm, rfl⟩
  unfold getInputs
  rw [hid "developer-price" (mem "developerPrice" _ InputRecord.developerPrice
        (by simp [inputFields])),
    hid "developer-consumption" (mem "developerConsumption" _
        InputRecord.developerConsumption (by simp [inputFields])),
    hid "plate-price" (mem "platePrice" _ InputRecord.platePrice (by simp [inputFields])),
    hid "equipment-price" (mem "equipmentPrice" _ InputRecord.equipmentPrice
        (by simp [inputFields])),
    hid "depreciation-years" (mem "depreciationYears" _ InputRecord.depreciationYears
        (by simp [inputFields])),
    hid "power-consumption" (mem "powerConsumption" _ InputRecord.powerConsumption
        (by simp [inputFields])),
    hid "operating-time" (mem "operatingTime" _ InputRecord.operatingTime
        (by simp [inputFields])),
    hid "electricity-price" (mem "electricityPrice" _ InputRecord.electricityPrice
        (by simp [inputFields])),
    hid "labor-salary" (mem "laborSalary" _ InputRecord.laborSalary (by simp [inputFields])),
    hid "work-days" (mem "workDays" _ InputRecord.workDays (by simp [inputFields])),
    hid "daily-hours" (mem "dailyHours" _ InputRecord.dailyHours (by simp [inputFields])),
    hid "wastewater-volume" (mem "wastewaterVolume" _ InputRecord.wastewaterVolume
        (by simp [inputFields])),
    hid "wastewater-price" (mem "wastewaterPrice" _ InputRecord.wastewaterPrice
        (by simp [inputFields])),
    hid "water-consumption" (mem "waterConsumption" _ InputRecord.waterConsumption
        (by simp [inputFields])),
    hid "water-price" (mem "waterPrice" _ InputRecord.waterPrice (by simp [inputFields]))]
  rfl

theorem readRecord_field (h : Host) (pfx : String) (doc : List InputElement) :
    ∀ f ∈ inputFields, f.2.2 (readRecord h pfx doc) = fieldValue h pfx doc f.2.1 := by
  intro f hf
  simp only [inputFields, List.mem_cons, List.mem_singleton, List.not_mem_nil, or_false] at hf
  rcases hf with rfl | rfl | rfl | rfl | rfl | rfl | rfl | rfl | rfl | rfl | rfl | rfl | rfl
    | rfl | rfl <;> rfl

theorem getVal_cases (h : Host) (pfx : String) (doc : List InputElement) (id : String) :
    ((valueAt doc (pfx ++ id)).isSome = true
        ∧ getVal h pfx doc id = .ok (fieldValue h pfx doc id))
    ∨ (valueAt doc (pfx ++ id) = none ∧ getVal h pfx doc id = .error .typeError) := by
  cases hv : valueAt doc (pfx ++ id) with
  | some text =>
    exact Or.inl ⟨rfl, getVal_of_present h pfx doc id (by rw [hv]; rfl)⟩
  | none =>
    refine Or.inr ⟨rfl, ?_⟩
    unfold valueAt at hv
    unfold getVal
    cases hfind : getElementById doc (pfx ++ id) with
    | none => rfl
    | some e => simp [hfind] at hv

theorem getInputs_of_absent (h : Host) (pfx : String) (doc : List InputElement)
    (hp : fieldsPresent pfx doc = false) :
    getInputs h pfx doc = .error .typeError := by
  rcases getVal_cases h pfx doc "developer-price" with ⟨p1, g1⟩ | ⟨-, g1⟩
  swap
  · simp only [getInputs, g1]
    rfl
  rcases getVal_cases h pfx doc "developer-consumption" with ⟨p2, g2⟩ | ⟨-, g2⟩
  swap
  · simp only [getInputs, g1, g2]
    rfl
  rcases getVal_cases h pfx doc "plate-price" with ⟨p3, g3⟩ | ⟨-, g3⟩
  swap
  · simp only [getInputs, g1, g2, g3]
    rfl
  rcases getVal_cases h pfx doc "equipment-price" with ⟨p4, g4⟩ | ⟨-, g4⟩
  swap
  · simp only [getInputs, g1, g2, g3, g4]
    rfl
  rcases getVal_cases h pfx doc "depreciation-years" with ⟨p5, g5⟩ | ⟨-, g5⟩
  swap
  · simp only [getInputs, g1, g2, g3, g4, g5]
    rfl
  rcases getVal_cases h pfx doc "power-consumption" with ⟨p6, g6⟩ | ⟨-, g6⟩
  swap
  · simp only [getInputs, g1, g2, g3, g4, g5, g6]
    rfl
  rcases getVal_cases h pfx doc "operating-time" with ⟨p7, g7⟩ | ⟨-, g7⟩
  swap
  · simp only [getInputs, g1, g2, g3, g4, g5, g6, g7]
    rfl
  rcases getVal_cases h pfx doc "electricity-price" with ⟨p8, g8⟩ | ⟨-, g8⟩
  swap
  · simp only [getInputs, g1, g2, g3, g4, g5, g6, g7, g8]
    rfl
  rcases getVal_cases h pfx doc "labor-salary" with ⟨p9, g9⟩ | ⟨-, g9⟩
  swap
  · simp only [getInputs, g1, g2, g3, g4, g5, g6, g7, g8, g9]
    rfl
  rcases getVal_cases h pfx doc "work-days" with ⟨p10, g10⟩ | ⟨-, g10⟩
  swap
  · simp only [getInputs, g1, g2, g3, g4, g5, g6, g7, g8, g9, g10]
    rfl
  rcases getVal_cases h pfx doc "daily-hours" with ⟨p11, g11⟩ | ⟨-, g11⟩
  swap
  · simp only [getInputs, g1, g2, g3, g4, g5, g6, g7, g8, g9, g10, g11]
    rfl
  rcases getVal_cases h pfx doc "wastewater-volume" with ⟨p12, g12⟩ | ⟨-, g12⟩
  swap
  · simp only [getInputs, g1, g2, g3, g4, g5, g6, g7, g8, g9, g10, g11, g12]
    rfl
  rcases getVal_cases h pfx doc "wastewater-price" with ⟨p13, g13⟩ | ⟨-, g13⟩
  swap
  · simp only [getInputs, g1, g2, g3, g4, g5, g6, g7, g8, g9, g10, g11, g12, g13]
    rfl
  rcases getVal_cases h pfx doc "water-consumption" with ⟨p14, g14⟩ | ⟨-, g14⟩
  swap
  · simp only [getInputs, g1, g2, g3, g4, g5, g6, g7, g8, g9, g10, g11, g12, g13, g14]
    rfl
  rcases getVal_cases h pfx doc "water-price" with ⟨p15, g15⟩ | ⟨-, g15⟩
  swap
  · simp only [getInputs, g1, g2, g3, g4, g5, g6, g7, g8, g9, g10, g11, g12, g13, g14, g15]
    rfl
  exfalso
  have hall : fieldsPresent pfx doc = true := by
    simp only [fieldsPresent, inputFields, List.all_cons, List.all_nil, p1, p2, p3, p4, p5, p6, p7, p8, p9, p10, p11, p12, p13, p14, p15,
      Bool.and_self]
  rw [hp] at hall
  exact Bool.false_ne_true hall

/-- C8, as stated, fails: on a page that lacks one of the fifteen elements (here
the last, `fl-water-price`, or all of them) `getInputs` raises a `TypeError`
instead of returning 0 for the absent field. -/
theorem getInputs_absent_field_raises :
    getInputs sampleHost "fl-" ((sampleFields "fl-" exampleTexts).take 14)
        = .error .typeError
    ∧ getInputs sampleHost "fl-" [] = .error .typeError := by
  constructor <;> rfl

/-- C8, amended: for every host, every prefix and every page, when the page has
the fifteen elements `getInputs` raises no error and returns a record in which
each field is the number `parseFloat` reads from the element's text, or 0 when
the text is empty or unparseable (`parseFloat` gives `NaN`); and when one of
the fifteen elements is absent `getInputs` raises a `TypeError`. -/
theorem getInputs_spec (h : Host) (pfx : String) (doc : List InputElement) :
    (fieldsPresent pfx doc = true →
      ∃ r, getInputs h pfx doc = .ok r
        ∧ ∀ f ∈ inputFields, ∃ e, getElementById doc (pfx ++ f.2.1) = some e
            ∧ f.2.2 r = (h.parseFloat e.value).getD 0)
    ∧ (fieldsPresent pfx doc = false → getInputs h pfx doc = .error .typeError) := by
  refine ⟨fun hp => ?_, getInputs_of_absent h pfx doc⟩
  refine ⟨readRecord h pfx doc, getInputs_of_present h pfx doc hp, fun f hf => ?_⟩
  have hsome := (fieldsPresent_iff pfx doc).mp hp f hf
  rw [readRecord_field h pfx doc f hf]
  unfold fieldValue
  unfold valueAt at hsome ⊢
  cases hfind : getElementById doc (pfx ++ f.2.1) with
  | none => simp [hfind] at hsome
  | some e => exact ⟨e, rfl, orZero_eq_getD _⟩

/-- C8 on the sample page: the fifteen `fl-` elements exist and a record is
read from them; no `zz-` element exists and reading raises a `TypeError`. -/
theorem getInputs_spec_witness :
    (∃ r, getInputs sampleHost "fl-" samplePage.inputs = .ok r
      ∧ ∀ f ∈ inputFields, ∃ e, getElementById samplePage.inputs ("fl-" ++ f.2.1) = some e
          ∧ f.2.2 r = (sampleHost.parseFloat e.value).getD 0)
    ∧ getInputs sampleHost "zz-" samplePage.inputs = .error .typeError :=
  ⟨(getInputs_spec sampleHost "fl-" samplePage.inputs).1 (by decide),
    (getInputs_spec sampleHost "zz-" samplePage.inputs).2 (by decide)⟩

/-! ## Theorems: persistence -/

theorem kebabCase_inputFields : ∀ f ∈ inputFields, kebabCase f.1 = f.2.1 := by
  intro f hf
  simp only [inputFields, List.mem_cons, List.mem_singleton, List.not_mem_nil, or_false] at hf
  rcases hf with rfl | rfl | rfl | rfl | rfl | rfl | rfl | rfl | rfl | rfl | rfl | rfl | rfl
    | rfl | rfl <;> decide

theorem validateInput_id (h : Host) (e : InputElement) : (validateInput h e).id = e.id := by
  unfold validateInput; split_ifs <;> rfl

theorem validateInput_value (h : Host) (e : InputElement) :
    (validateInput h e).value = e.value := by
  unfold validateInput; split_ifs <;> rfl

theorem getElementById_nil (id : String) : getElementById [] id = none := rfl

theorem getElementById_cons (e : InputElement) (rest : List InputElement) (id : String) :
    getElementById (e :: rest) id = if e.id = id then some e else getElementById rest id := by
  unfold getElementById
  by_cases he : e.id = id
  · simp [List.find?_cons, he]
  · simp [List.find?_cons, he]

theorem updateElement_cons (e : InputElement) (rest : List InputElement) (id : String)
    (f : InputElement → InputElement) :
    updateElement (e :: rest) id f
      = if e.id = id then f e :: rest else e :: updateElement rest id f := by
  by_cases he : e.id = id
  · simp [updateElement, he]
  · simp [updateElement, he]

theorem getElementById_updateElement (doc : List InputElement) (id id' : String)
    (f : InputElement → InputElement) (hf : ∀ e, (f e).id = e.id) :
    getElementById (updateElement doc id f) id'
      = if id' = id then (getElementById doc id').map f else getElementById doc id' := by
  induction doc with
  | nil => simp [updateElement, getElementById_nil]
  | cons e rest ih =>
    rw [updateElement_cons]
    by_cases he : e.id = id
    · rw [if_pos he, getElementById_cons, getElementById_cons, hf]
      by_cases hid : id' = id
      · rw [if_pos hid, if_pos (he.trans hid.symm), if_pos (he.trans hid.symm)]
        rfl
      · have hne : ¬ e.id = id' := fun h => hid (h.symm.trans he)
        rw [if_neg hid, if_neg hne, if_neg hne]
    · rw [if_neg he, getElementById_cons, getElementById_cons, ih]
      by_cases he' : e.id = id'
      · have hid : ¬ id' = id := fun h => he (he'.trans h)
        simp only [if_pos he', if_neg hid]
      · simp only [if_neg he']

theorem valueAt_setInput (h : Host) (pfx : String) (doc : List InputElement)
    (entry : String × ℚ) (id' : String) :
    valueAt (setInput h pfx doc entry) id'
      = if id' = pfx ++ kebabCase entry.1 then
          (valueAt doc id').map (fun _ => h.numberToString entry.2)
        else valueAt doc id' := by
  unfold valueAt
  cases hfind : getElementById doc (pfx ++ kebabCase entry.1) with
  | none =>
    have hset : setInput h pfx doc entry = doc := by simp only [setInput, hfind]
    rw [hset]
    by_cases hid : id' = pfx ++ kebabCase entry.1
    · rw [if_pos hid, hid, hfind]; rfl
    · rw [if_neg hid]
  | some e =>
    have hset : setInput h pfx doc entry
        = updateElement doc (pfx ++ kebabCase entry.1) fun element =>
            validateInput h { element with value := h.numberToString entry.2 } := by
      simp only [setInput, hfind]
    rw [hset, getElementById_updateElement _ _ _ _ (fun e => by rw [validateInput_id])]
    by_cases hid : id' = pfx ++ kebabCase entry.1
    · rw [if_pos hid, if_pos hid, hid, hfind]
      simp [validateInput_value]
    · rw [if_neg hid, if_neg hid]

theorem kebabCase_keys :
    kebabCase "developerPrice" = "developer-price"
    ∧ kebabCase "developerConsumption" = "developer-consumption"
    ∧ kebabCase "platePrice" = "plate-price"
    ∧ kebabCase "equipmentPrice" = "equipment-price"
    ∧ kebabCase "depreciationYears" = "depreciation-years"
    ∧ kebabCase "powerConsumption" = "power-consumption"
    ∧ kebabCase "operatingTime" = "operating-time"
    ∧ kebabCase "electricityPrice" = "electricity-price"
    ∧ kebabCase "laborSalary" = "labor-salary"
    ∧ kebabCase "workDays" = "work-days"
    ∧ kebabCase "dailyHours" = "daily-hours"
    ∧ kebabCase "wastewaterVolume" = "wastewater-volume"
    ∧ kebabCase "wastewaterPrice" = "wastewater-price"
    ∧ kebabCase "waterConsumption" = "water-consumption"
    ∧ kebabCase "waterPrice" = "water-price" := by
  decide

/-- After both `setInputs` calls of `loadSavedData`, every field that exists
holds the text of the stored number of its own key. -/
theorem valueAt_setInputs_both (h : Host) (A B : InputRecord) (doc : List InputElement) :
    (∀ f ∈ inputFields,
        valueAt (setInputs h "tr-" B.entries (setInputs h "fl-" A.entries doc))
            ("fl-" ++ f.2.1)
          = (valueAt doc ("fl-" ++ f.2.1)).map fun _ => h.numberToString (f.2.2 A))
    ∧ (∀ f ∈ inputFields,
        valueAt (setInputs h "tr-" B.entries (setInputs h "fl-" A.entries doc))
            ("tr-" ++ f.2.1)
          = (valueAt doc ("tr-" ++ f.2.1)).map fun _ => h.numberToString (f.2.2 B)) := by
  obtain ⟨k1, k2, k3, k4, k5, k6, k7, k8, k9, k10, k11, k12, k13, k14, k15⟩ := kebabCase_keys
  constructor <;> intro f hf <;>
    simp only [inputFields, List.mem_cons, List.mem_singleton, List.not_mem_nil,
      or_false] at hf <;>
    rcases hf with rfl | rfl | rfl | rfl | rfl | rfl | rfl | rfl | rfl | rfl | rfl | rfl | rfl
      | rfl | rfl <;>
    simp [setInputs, InputRecord.entries, inputFields, valueAt_setInput, k1, k2, k3, k4, k5,
      k6, k7, k8, k9, k10, k11, k12, k13, k14, k15]

theorem readRecord_eq_of_fields (h : Host) (pfx : String) (doc : List InputElement)
    (A : InputRecord)
    (hall : ∀ f ∈ inputFields, fieldValue h pfx doc f.2.1 = f.2.2 A) :
    readRecord h pfx doc = A := by
  simp only [inputFields, List.forall_mem_cons, List.not_mem_nil, false_implies,
    implies_true, and_true] at hall
  obtain ⟨h1, h2, h3, h4, h5, h6, h7, h8, h9, h10, h11, h12, h13, h14, h15⟩ := hall
  cases A
  simp only [readRecord, InputRecord.mk.injEq]
  exact ⟨h1, h2, h3, h4, h5, h6, h7, h8, h9, h10, h11, h12, h13, h14, h15⟩

theorem saveThenLoad_inputs (h : Host) (A B : InputRecord) (page : Page)
    (doc : List InputElement) :
    (saveThenLoad h A B page doc).inputs
      = setInputs h "tr-" B.entries (setInputs h "fl-" A.entries doc) := by
  simp [saveThenLoad, loadSavedData, saveData, setItem]

theorem getInputs_of_values (h : Host) (pfx : String) (doc : List InputElement)
    (A : InputRecord)
    (hval : ∀ f ∈ inputFields, valueAt doc (pfx ++ f.2.1) = some (h.numberToString (f.2.2 A)))
    (hrt : ∀ f ∈ inputFields, h.parseFloat (h.numberToString (f.2.2 A)) = some (f.2.2 A)) :
    getInputs h pfx doc = .ok A := by
  have hp : fieldsPresent pfx doc = true := by
    rw [fieldsPresent_iff]
    intro f hf
    rw [hval f hf]; rfl
  rw [getInputs_of_present h pfx doc hp]
  congr 1
  apply readRecord_eq_of_fields
  intro f hf
  unfold fieldValue
  rw [hval f hf]
  simp only [hrt f hf, orZero_eq_getD, Option.getD_some]

/-- C7: `saveData(A, B)` followed by `loadSavedData()` round-trips. The key
transform maps each camelCase key to the id suffix `getInputs` reads for it; on
a page that has the thirty elements, each of them then holds the text of the
stored number of its own field; and, the host reading back every number it
wrote, `getInputs('fl-')` and `getInputs('tr-')` return `A` and `B`. -/
theorem save_load_roundtrip (h : Host) (A B : InputRecord) (page : Page)
    (doc : List InputElement)
    (hfl : fieldsPresent "fl-" doc = true) (htr : fieldsPresent "tr-" doc = true)
    (hrt : ∀ x ∈ (A.entries ++ B.entries).map Prod.snd,
      h.parseFloat (h.numberToString x) = some x) :
    (∀ f ∈ inputFields, kebabCase f.1 = f.2.1)
    ∧ (∀ f ∈ inputFields,
        valueAt (saveThenLoad h A B page doc).inputs ("fl-" ++ f.2.1)
          = some (h.numberToString (f.2.2 A)))
    ∧ (∀ f ∈ inputFields,
        valueAt (saveThenLoad h A B page doc).inputs ("tr-" ++ f.2.1)
          = some (h.numberToString (f.2.2 B)))
    ∧ getInputs h "fl-" (saveThenLoad h A B page doc).inputs = .ok A
    ∧ getInputs h "tr-" (saveThenLoad h A B page doc).inputs = .ok B := by
  have hA : ∀ f ∈ inputFields,
      valueAt (saveThenLoad h A B page doc).inputs ("fl-" ++ f.2.1)
        = some (h.numberToString (f.2.2 A)) := by
    intro f hf
    rw [saveThenLoad_inputs, (valueAt_setInputs_both h A B doc).1 f hf]
    obtain ⟨text, htext⟩ := Option.isSome_iff_exists.mp ((fieldsPresent_iff _ _).mp hfl f hf)
    rw [htext]; rfl
  have hB : ∀ f ∈ inputFields,
      valueAt (saveThenLoad h A B page doc).inputs ("tr-" ++ f.2.1)
        = some (h.numberToString (f.2.2 B)) := by
    intro f hf
    rw [saveThenLoad_inputs, (valueAt_setInputs_both h A B doc).2 f hf]
    obtain ⟨text, htext⟩ := Option.isSome_iff_exists.mp ((fieldsPresent_iff _ _).mp htr f hf)
    rw [htext]; rfl
  have hrtA : ∀ f ∈ inputFields,
      h.parseFloat (h.numberToString (f.2.2 A)) = some (f.2.2 A) := by
    intro f hf
    apply hrt
    simp only [List.map_append, List.mem_append, List.mem_map, InputRecord.entries]
    exact Or.inl ⟨(f.1, f.2.2 A), ⟨f, hf, rfl⟩, rfl⟩
  have hrtB : ∀ f ∈ inputFields,
      h.parseFloat (h.numberToString (f.2.2 B)) = some (f.2.2 B) := by
    intro f hf
    apply hrt
    simp only [List.map_append, List.mem_append, List.mem_map, InputRecord.entries]
    exact Or.inr ⟨(f.1, f.2.2 B), ⟨f, hf, rfl⟩, rfl⟩
  exact ⟨kebabCase_inputFields, hA, hB, getInputs_of_values h _ _ A hA hrtA,
    getInputs_of_values h _ _ B hB hrtB⟩

/-- C7 on the sample page: the worked example and its variant are saved, the
fields hold the two exchanged when the load runs, and reading returns the
saved records. -/
theorem save_load_roundtrip_witness :
    getInputs sampleHost "fl-"
        (saveThenLoad sampleHost exampleInputs otherInputs samplePage swappedFields).inputs
      = .ok exampleInputs
    ∧ getInputs sampleHost "tr-"
        (saveThenLoad sampleHost exampleInputs otherInputs samplePage swappedFields).inputs
      = .ok otherInputs :=
  (save_load_roundtrip sampleHost exampleInputs otherInputs samplePage swappedFields
    (by decide) (by decide) (by decide)).2.2.2

/-! ## Theorems: the calculate action -/

theorem allValid_iff (h : Host) (doc : List InputElement) :
    (doc.filter (·.required)).all h.checkValidity = true ↔
      ∀ e ∈ doc, e.required = true → h.checkValidity e = true := by
  simp only [List.all_eq_true, List.mem_filter, and_imp]

/-- C9, as stated, fails: on a page without the `tr-` elements every required
input is valid, yet the calculate action raises a `TypeError` instead of
updating the table, the charts and the stored records. -/
theorem calculate_valid_but_raises :
    (∀ e ∈ flOnlyPage.inputs, e.required = true → sampleHost.checkValidity e = true)
    ∧ calculateCostsAndDisplay sampleHost flOnlyPage = .error .typeError := by
  constructor
  · decide
  · rfl

/-- C9, amended: when some required input fails its validity check, the
calculate action shows exactly one alert and changes nothing else (table,
charts and storage stay as they were); when every required input is valid and
the page has the thirty input elements, it shows no alert, and the table, the
four charts and both stored records are those computed from the current
inputs; when every required input is valid and an input element is absent, it
raises a `TypeError`. -/
theorem calculateCostsAndDisplay_spec (h : Host) (page : Page) :
    ((∃ e ∈ page.inputs, e.required = true ∧ h.checkValidity e = false) →
      calculateCostsAndDisplay h page
        = .ok { page with alerts := page.alerts ++ [alertMessage] })
    ∧ ((∀ e ∈ page.inputs, e.required = true → h.checkValidity e = true) →
        fieldsPresent "fl-" page.inputs = true → fieldsPresent "tr-" page.inputs = true →
        ∃ fl tr page',
          getInputs h "fl-" page.inputs = .ok fl
          ∧ getInputs h "tr-" page.inputs = .ok tr
          ∧ calculateCostsAndDisplay h page = .ok page'
          ∧ page'.alerts = page.alerts
          ∧ page'.tableBody
              = costItems.map (fun item =>
                  comparisonRow h item.1 (item.2 (calculateSinglePlateCost fl))
                    (item.2 (calculateSinglePlateCost tr)))
          ∧ page'.totalCostChartInstance = some
              { kind := "bar", labels := workflowLabels
                data := [(calculateSinglePlateCost fl).totalMonthlyCost,
                  (calculateSinglePlateCost tr).totalMonthlyCost] }
          ∧ page'.flCostCompositionChartInstance = some
              { kind := "pie", labels := compositionLabels
                data := compositionData (calculateSinglePlateCost fl) }
          ∧ page'.trCostCompositionChartInstance = some
              { kind := "pie", labels := compositionLabels
                data := compositionData (calculateSinglePlateCost tr) }
          ∧ page'.unitCostTrendChartInstance = some
              { kind := "bar", labels := workflowLabels
                data := [(calculateSinglePlateCost fl).unitCost,
                  (calculateSinglePlateCost tr).unitCost] }
          ∧ page'.localStorage "flInputs" = some fl.entries
          ∧ page'.localStorage "trInputs" = some tr.entries)
    ∧ ((∀ e ∈ page.inputs, e.required = true → h.checkValidity e = true) →
        (fieldsPresent "fl-" page.inputs = false ∨ fieldsPresent "tr-" page.inputs = false) →
        calculateCostsAndDisplay h page = .error .typeError) := by
  refine ⟨?_, ?_, ?_⟩
  · rintro ⟨e, he, hreq, hbad⟩
    have hnot : (page.inputs.filter (·.required)).all h.checkValidity = false := by
      rw [Bool.eq_false_iff]
      intro hall
      have := (allValid_iff h page.inputs).mp hall e he hreq
      rw [hbad] at this
      exact Bool.false_ne_true this
    simp only [calculateCostsAndDisplay, hnot, Bool.not_false, if_true]
  · intro hvalid hfl htr
    have hall := (allValid_iff h page.inputs).mpr hvalid
    have gfl := getInputs_of_present h "fl-" page.inputs hfl
    have gtr := getInputs_of_present h "tr-" page.inputs htr
    refine ⟨readRecord h "fl-" page.inputs, readRecord h "tr-" page.inputs,
      saveData (readRecord h "fl-" page.inputs) (readRecord h "tr-" page.inputs)
        (renderCharts
          { fl := calculateSinglePlateCost (readRecord h "fl-" page.inputs)
            tr := calculateSinglePlateCost (readRecord h "tr-" page.inputs) }
          (displayComparisonTable h
            { fl := calculateSinglePlateCost (readRecord h "fl-" page.inputs)
              tr := calculateSinglePlateCost (readRecord h "tr-" page.inputs) } page)),
      gfl, gtr, ?_, rfl, rfl, rfl, rfl, rfl, rfl, ?_, ?_⟩
    · simp only [calculateCostsAndDisplay, hall, Bool.not_true, Bool.false_eq_true, if_false,
        calculateCosts, gfl, gtr, renderCharts, displayComparisonTable]
      rfl
    · simp [saveData, setItem]
    · simp [saveData, setItem]
  · intro hvalid habsent
    have hall := (allValid_iff h page.inputs).mpr hvalid
    have hcosts : calculateCosts h page.inputs = .error .typeError := by
      cases hfl : fieldsPresent "fl-" page.inputs with
      | false =>
        simp only [calculateCosts, getInputs_of_absent h "fl-" page.inputs hfl]
        rfl
      | true =>
        have htr : fieldsPresent "tr-" page.inputs = false := by
          rcases habsent with h1 | h1
          · rw [hfl] at h1
            exact absurd h1 (by decide)
          · exact h1
        simp only [calculateCosts, getInputs_of_present h "fl-" page.inputs hfl,
          getInputs_of_absent h "tr-" page.inputs htr]
        rfl
    simp only [calculateCostsAndDisplay, hall, Bool.not_true, Bool.false_eq_true, if_false,
      hcosts]
    rfl

/-- C9 on the sample pages: with `fl-developer-price` empty the action only adds
the alert; with every field filled it stores the worked example and shows no
alert; without the `tr-` elements it raises a `TypeError`. -/
theorem calculateCostsAndDisplay_spec_witness :
    calculateCostsAndDisplay sampleHost invalidPage
        = .ok { invalidPage with alerts := invalidPage.alerts ++ [alertMessage] }
    ∧ (∃ page', calculateCostsAndDisplay sampleHost samplePage = .ok page'
        ∧ page'.alerts = []
        ∧ page'.localStorage "flInputs" = some exampleInputs.entries)
    ∧ calculateCostsAndDisplay sampleHost flOnlyPage = .error .typeError := by
  refine ⟨(calculateCostsAndDisplay_spec sampleHost invalidPage).1
    ⟨{ id := "fl-developer-price", value := "", required := true, invalid := false },
      by decide, rfl, by decide⟩, ?_,
    (calculateCostsAndDisplay_spec sampleHost flOnlyPage).2.2 (by decide)
      (Or.inr (by decide))⟩
  obtain ⟨fl, tr, page', hfl, -, hrun, halerts, -, -, -, -, -, hstore, -⟩ :=
    (calculateCostsAndDisplay_spec sampleHost samplePage).2.1 (by decide) (by decide)
      (by decide)
  have hfl' : getInputs sampleHost "fl-" samplePage.inputs = .ok exampleInputs := rfl
  rw [hfl'] at hfl
  cases hfl
  exact ⟨page', hrun, halerts, hstore⟩

end TwoWeb
